import Mathlib

/-!
Verification of the rates-vs-equity-returns pipeline.

This file shallowly embeds the data-alignment stage (`scripts/02_build_dataset.py`)
and the analysis stage (`scripts/03_run_analysis.py`) of the repository and proves
the spec's claims about them.

Modelling conventions:
* A pandas cell is modelled by what the pipeline can extract from it: the result of
  `pd.to_datetime(·, errors="coerce")` (an `Option Int`, `none` meaning `NaT`) and
  the numeric value (`Option V`, `none` meaning `NaN` / non-numeric).  Dates are
  integers (ordinal timestamps); their only relevant structure is a linear order.
* The numeric payload type `V` is kept generic (the scripts run on float64; the
  alignment logic only ever subtracts values, so any type with `Sub` is faithful).
  The analysis-stage heuristics compare magnitudes, so there the payload is `ℚ`,
  the exact idealisation of the finite float values the scripts manipulate.
* Fallible operations (`df.columns[0]` on an empty frame, `_keep_numeric`'s raise)
  return `Option` / `Except`.
-/

namespace RatesEquity

/-! ## Python string primitives used by both scripts -/

/-- Python `s.startswith(pre)`. -/
def pyStartsWith (s pre : String) : Bool :=
  pre.toList.isPrefixOf s.toList

/-- Python substring test `sub in s`. -/
def pyInStr (sub s : String) : Bool :=
  go sub.toList s.toList
where
  /-- Scan of every suffix of the haystack. -/
  go (needle : List Char) : List Char → Bool
    | [] => needle.isEmpty
    | c :: rest => needle.isPrefixOf (c :: rest) || go needle rest

/-- Python `s.lower()` (ASCII is all the pipeline ever compares). -/
def pyLower (s : String) : String :=
  String.mk (s.toList.map Char.toLower)

/-! ## Stage 2 (`02_build_dataset.py`): data model -/

/-- One table cell, as seen by the pipeline: its date parse and its numeric value. -/
structure Cell (V : Type) where
  date : Option Int
  num : Option V
deriving DecidableEq

/-- A raw on-disk table: an ordered header of (column name, dtype-is-numeric)
pairs and a list of rows. -/
structure RawDF (V : Type) where
  header : List (String × Bool)
  rows : List (List (Cell V))
deriving DecidableEq

/-- Column names of a raw table, in order (`df.columns`). -/
def RawDF.names {V : Type} (df : RawDF V) : List String :=
  df.header.map (fun p => p.1)

/-- A date-indexed numeric table (the result of standardising + keeping numeric
columns): column names plus rows of (date, values). -/
structure NumDF (V : Type) where
  names : List String
  rows : List (Int × List (Option V))
deriving DecidableEq

/-- The date index of a numeric table. -/
def NumDF.index {V : Type} (d : NumDF V) : List Int :=
  d.rows.map (fun r => r.1)

/-! ## Stage 2: operations -/

/-- The ordered candidate list of `_infer_date_col`. -/
def dateCandidates : List String :=
  ["date", "Date", "DATE", "datetime", "Datetime", "DATETIME"]

/-- `_infer_date_col`: first exact candidate match, else the first column.
`none` models the `IndexError` of `df.columns[0]` on a column-less frame. -/
def infer_date_col (names : List String) : Option String :=
  match dateCandidates.find? (fun c => names.contains c) with
  | some c => some c
  | none => names.head?

/-- Position of the inferred date column. -/
def dateColIdx {V : Type} (df : RawDF V) : Option Nat :=
  (infer_date_col df.names).map (fun c => df.names.findIdx (fun n => n == c))

/-- Key a row by its parsed date (dropping the date cell from the row), or `none`
when the date entry fails to parse (`errors="coerce"` + `dropna`). -/
def rowKeyed {V : Type} (i : Nat) (r : List (Cell V)) : Option (Int × List (Cell V)) :=
  match r[i]? >>= Cell.date with
  | some d => some (d, r.eraseIdx i)
  | none => none

/-- A standardised table: header without the date column, rows keyed and sorted
by parsed date. -/
structure StdDF (V : Type) where
  header : List (String × Bool)
  rows : List (Int × List (Cell V))
deriving DecidableEq

/-- `_standardize_date_index`: parse the date column (`errors="coerce"`), drop
rows whose date failed to parse, sort ascending by date, index by date. -/
def standardize {V : Type} (df : RawDF V) : Option (StdDF V) :=
  (dateColIdx df).map (fun i =>
    { header := df.header.eraseIdx i
      rows := (df.rows.filterMap (rowKeyed i)).insertionSort (fun a b => a.1 ≤ b.1) })

/-- Numeric projection of a row: the `num` field of the cells sitting under a
numeric-dtype header position (`df.select_dtypes(include="number")`). -/
def selectNum {V : Type} (header : List (String × Bool)) (cells : List (Cell V)) :
    List (Option V) :=
  ((header.zip cells).filter (fun p => p.1.2)).map (fun p => p.2.num)

/-- `_keep_numeric`: keep numeric-dtype columns only; error when none remain. -/
def keep_numeric {V : Type} (s : StdDF V) : Except String (NumDF V) :=
  let names := (s.header.filter (fun p => p.2)).map (fun p => p.1)
  if names.isEmpty then
    .error "No numeric columns found. Provide at least one numeric series."
  else
    .ok { names := names, rows := s.rows.map (fun r => (r.1, selectNum s.header r.2)) }

/-- `df.add_prefix(p)`. -/
def NumDF.addPre {V : Type} (p : String) (d : NumDF V) : NumDF V :=
  { d with names := d.names.map (fun n => p ++ n) }

/-- Pointwise difference of two optional values, `NaN`-propagating:
`diffPair prev cur = cur - prev`. -/
def diffPair {V : Type} [Sub V] (a b : Option V) : Option V :=
  match a, b with
  | some x, some y => some (y - x)
  | _, _ => none

/-- `df.diff().add_prefix("d_")`: row 0 becomes all-missing, row t becomes
row t minus row t-1, dates unchanged. -/
def NumDF.diffN {V : Type} [Sub V] (n : NumDF V) : NumDF V :=
  { names := n.names.map (fun s => "d_" ++ s)
    rows :=
      match n.rows with
      | [] => []
      | r0 :: _ =>
        (r0.1, r0.2.map (fun _ => (none : Option V))) ::
          List.zipWith (fun prev cur => (cur.1, List.zipWith diffPair prev.2 cur.2))
            n.rows n.rows.tail }

/-- First row (by scan order) of a numeric table carrying a given date. -/
def NumDF.lookup {V : Type} (n : NumDF V) (d : Int) : Option (List (Option V)) :=
  (n.rows.find? (fun r => r.1 == d)).map (fun r => r.2)

/-- Join one equity row with the rate and rate-change rows sharing its date
(`none` when the date is missing from either). -/
def joinRow {V : Type} (r dr : NumDF V) (row : Int × List (Option V)) :
    Option (Int × List (Option V)) :=
  match r.lookup row.1, dr.lookup row.1 with
  | some rv, some dv => some (row.1, row.2 ++ rv ++ dv)
  | _, _ => none

/-- `pd.concat([e, r, dr], axis=1, join="inner")` over date-indexed frames:
rows of `e` whose date also appears in `r` and in `dr`, columns appended. -/
def concatInner {V : Type} (e r dr : NumDF V) : NumDF V :=
  { names := e.names ++ r.names ++ dr.names
    rows := e.rows.filterMap (joinRow r dr) }

/-- `df.dropna()`: drop every row containing a missing value. -/
def NumDF.dropna {V : Type} (n : NumDF V) : NumDF V :=
  { n with rows := n.rows.filter (fun r => r.2.all Option.isSome) }

/-- The dataset-building core of `main` in `02_build_dataset.py` (lines 110-120):
standardise both tables, keep numeric columns (raising if none), add the
`rate_` / `eq_` column name markers, first-difference the rates, inner-join
and drop incomplete rows. -/
def build_dataset {V : Type} [Sub V] (ratesRaw equityRaw : RawDF V) :
    Except String (NumDF V) :=
  match standardize ratesRaw, standardize equityRaw with
  | some rs, some es =>
    match keep_numeric rs, keep_numeric es with
    | .ok r0, .ok e0 =>
      let r := r0.addPre "rate_"
      let e := e0.addPre "eq_"
      .ok ((concatInner e r r.diffN).dropna)
    | .error m, _ => .error m
    | _, .error m => .error m
  | _, _ => .error "IndexError: no columns"

/-- The dates of a raw table that parse successfully, in on-disk row order. -/
def parseableDates {V : Type} (df : RawDF V) : List Int :=
  match dateColIdx df with
  | none => []
  | some i => df.rows.filterMap (fun r => r[i]? >>= Cell.date)

/-- A joined row at date `d` exists and is free of missing values. -/
def joinedComplete {V : Type} (e r dr : NumDF V) (d : Int) : Bool :=
  match e.lookup d, r.lookup d, dr.lookup d with
  | some ev, some rv, some dv => ((ev ++ rv ++ dv).all Option.isSome)
  | _, _, _ => false

/-! ## Stage 2: `main`'s input guard (`_find_file` and the missing-input exit) -/

/-- Presence flags for the four possible raw input files. -/
structure RawStore where
  ratesParquet : Bool
  ratesCsv : Bool
  equityParquet : Bool
  equityCsv : Bool
deriving DecidableEq

/-- Which on-disk format `_find_file` resolves a stem to. -/
inductive FileKind where
  | parquetFile
  | csvFile
deriving DecidableEq

/-- `_find_file`: probe `<stem>.parquet` first, then `<stem>.csv`. -/
def find_file (hasParquet hasCsv : Bool) : Option FileKind :=
  if hasParquet then some .parquetFile
  else if hasCsv then some .csvFile
  else none

/-- Outcome of `main` in `02_build_dataset.py`.
`missingInput` is the guard branch: the script prints remediation instructions
and calls `sys.exit(0)` before reading any input or writing any output.
`failed m` models an uncaught `ValueError`/`IndexError` raised while building.
`built ds` means `dataset.parquet` / `dataset.csv` are written with content `ds`. -/
inductive B2Outcome (V : Type) where
  | missingInput
  | failed (msg : String)
  | built (ds : NumDF V)
deriving DecidableEq

/-- `main` of `02_build_dataset.py`: the file-presence guard followed by the
dataset build. -/
def main02 {V : Type} [Sub V] (st : RawStore) (ratesRaw equityRaw : RawDF V) :
    B2Outcome V :=
  match find_file st.ratesParquet st.ratesCsv, find_file st.equityParquet st.equityCsv with
  | some _, some _ =>
    match build_dataset ratesRaw equityRaw with
    | .ok ds => .built ds
    | .error m => .failed m
  | _, _ => .missingInput

/-! ## Stage 3 (`03_run_analysis.py`): data model -/

/-- The processed dataset as the analyzer sees it: ordered named columns of
numeric-or-missing values (`pd.to_numeric(·, errors="coerce")` is absorbed
into the `Option`). -/
structure ADF where
  cols : List (String × List (Option ℚ))
deriving DecidableEq

/-- Column names in order. -/
def ADF.names (df : ADF) : List String :=
  df.cols.map (fun p => p.1)

/-- Values of the first column with the given name (`df[name]`); `[]` if absent. -/
def ADF.col (df : ADF) (n : String) : List (Option ℚ) :=
  ((df.cols.find? (fun p => p.1 == n)).map (fun p => p.2)).getD []

/-- Number of rows (pandas `len(df.index)`), read off the first column. -/
def ADF.nrows (df : ADF) : Nat :=
  match df.cols.head? with
  | some c => c.2.length
  | none => 0

/-- Pandas `df.empty`: no columns or no rows. -/
def ADF.isEmptyDF (df : ADF) : Bool :=
  df.cols.isEmpty || df.nrows == 0

/-! ## Stage 3: dataset loading (`_load_dataset` and the guard in `main`) -/

/-- State of one candidate dataset file: absent, present but failing to read
(the `except Exception: pass` path), or readable with the given content. -/
inductive FileState where
  | absent
  | unreadable
  | readable (df : ADF)
deriving DecidableEq

/-- `_load_dataset`: try `dataset.parquet`, fall through on absence or read
failure, then try `dataset.csv` the same way; `none` when neither yields a
dataframe. -/
def load_dataset : FileState → FileState → Option ADF
  | .readable df, _ => some df
  | .absent, .readable df => some df
  | .unreadable, .readable df => some df
  | _, _ => none

/-- The dataset guard of `main` (lines 132-137): `none` models printing the
"Missing processed dataset" instructions and exiting with status 0 (no
exception is raised); `some df` is the dataframe the analysis continues with. -/
def main03Gate (pq csv : FileState) : Option ADF :=
  match load_dataset pq csv with
  | none => none
  | some df => if df.isEmptyDF then none else some df

/-! ## Stage 3: column picking -/

/-- `_pick_first`: first column name carrying the marker. -/
def pick_first (cols : List String) (pre : String) : Option String :=
  cols.find? (fun c => pyStartsWith c pre)

/-- The rate-change column choice of `main` (lines 149-156): first `d_rate_`
column, else first `rate_` column. -/
def pickRate (cols : List String) : Option String :=
  match pick_first cols "d_rate_" with
  | some c => some c
  | none => pick_first cols "rate_"

/-! ## Stage 3: the return-transformation heuristic (`_ensure_returns`) -/

/-- The non-missing entries of a series, in order. -/
def presentVals (s : List (Option ℚ)) : List ℚ :=
  s.filterMap id

/-- Absolute values of the non-missing entries (`np.abs(s.values)` before the
NaN-skipping median). -/
def absVals (s : List (Option ℚ)) : List ℚ :=
  (presentVals s).map (fun q => |q|)

/-- `np.nanmedian`: median of the non-missing entries; `none` (NaN) when there
are none.  For an even count it averages the two middle order statistics. -/
def npMedian (l : List ℚ) : Option ℚ :=
  let s := l.insertionSort (fun a b => a ≤ b)
  if s.length = 0 then none
  else if s.length % 2 = 1 then s[s.length / 2]?
  else
    match s[s.length / 2 - 1]?, s[s.length / 2]? with
    | some a, some b => some ((a + b) / 2)
    | _, _ => none

/-- `np.nanmin`: minimum of the non-missing entries, `none` (NaN) if none. -/
def nanmin (s : List (Option ℚ)) : Option ℚ :=
  (presentVals s).min?

/-- Result of `_ensure_returns`.  `unchanged s` is the series returned as-is;
`logReturns s` denotes `np.log(s).diff()` applied to `s` (the numeric content
of that series is given by `TransformResult.valuesR` below). -/
inductive TransformResult where
  | unchanged (s : List (Option ℚ))
  | logReturns (s : List (Option ℚ))
deriving DecidableEq

/-- `_ensure_returns`: log-difference exactly when the median absolute value is
finite and exceeds 5 and the minimum value is strictly positive. -/
def ensure_returns (s : List (Option ℚ)) : TransformResult :=
  match npMedian (absVals s), nanmin s with
  | some m, some mn => if 5 < m ∧ 0 < mn then .logReturns s else .unchanged s
  | _, _ => .unchanged s

/-- `series.diff()` over any value type: first entry missing, entry `t` is
entry `t` minus entry `t-1`, missing when either operand is. -/
def diffSeries {V : Type} [Sub V] (s : List (Option V)) : List (Option V) :=
  match s with
  | [] => []
  | _ :: _ => none :: List.zipWith diffPair s s.tail

/-- Real-number semantics of a transform result: the unchanged series embeds
into `ℝ`; the log-returns case is literally `np.log(s).diff()`. -/
noncomputable def TransformResult.valuesR : TransformResult → List (Option Real)
  | .unchanged s => s.map (Option.map (fun q : ℚ => (q : Real)))
  | .logReturns s => diffSeries (s.map (Option.map (fun q : ℚ => Real.log (q : Real))))

/-- Non-missingness pattern of the series a transform result denotes.  For
`logReturns s` this is the pattern of `s.diff()`: `np.log` is total (and
finite) on the strictly positive entries the taken branch guarantees, so
entry `t` of `np.log(s).diff()` is present exactly when entries `t` and
`t-1` of `s` are. -/
def TransformResult.shape : TransformResult → List Bool
  | .unchanged s => s.map Option.isSome
  | .logReturns s => (diffSeries s).map Option.isSome

/-- Mapping a function over both operands does not change whether a difference
is defined. -/
lemma isSome_diffPair_map (f : ℚ → Real) (a b : Option ℚ) :
    (diffPair (a.map f) (b.map f)).isSome = (diffPair a b).isSome := by
  cases a <;> cases b <;> rfl

/-- Entrywise-mapped series have entrywise-equidefined differences. -/
lemma map_isSome_zipWith_diffPair (f : ℚ → Real) :
    ∀ (a b : List (Option ℚ)),
      (List.zipWith diffPair (a.map (Option.map f)) (b.map (Option.map f))).map
          Option.isSome =
        (List.zipWith diffPair a b).map Option.isSome := by
  intro a
  induction a with
  | nil => intro b; simp
  | cons x xs ih =>
    intro b
    cases b with
    | nil => simp
    | cons y ys =>
      simp only [List.map_cons, List.zipWith_cons_cons]
      rw [isSome_diffPair_map, ih ys]

/-- The `shape` of a transform result is honestly the non-missingness pattern
of its real-number content: `np.log` maps present entries to present entries,
so `np.log(s).diff()` and `s.diff()` are defined at the same positions. -/
lemma shape_eq_isSome_valuesR (t : TransformResult) :
    t.valuesR.map Option.isSome = t.shape := by
  cases t with
  | unchanged s =>
    show (s.map (Option.map _)).map Option.isSome = s.map Option.isSome
    rw [List.map_map]
    exact List.map_congr_left (fun a _ => by cases a <;> rfl)
  | logReturns s =>
    show (diffSeries (s.map (Option.map _))).map Option.isSome =
      (diffSeries s).map Option.isSome
    cases s with
    | nil => rfl
    | cons x xs =>
      simp only [diffSeries, List.map_cons, List.tail_cons]
      exact congrArg (List.cons false)
        (map_isSome_zipWith_diffPair (fun q : ℚ => Real.log (q : Real)) (x :: xs) xs)

/-! ## Stage 3: regression gate (`main`, lines 159-179) -/

/-- Number of paired observations surviving
`pd.concat([y, x], axis=1).dropna()`. -/
def countAligned (ymask xmask : List Bool) : Nat :=
  ((ymask.zip xmask).filter (fun p => p.1 && p.2)).length

/-- Outcome of the regression section of `main` in `03_run_analysis.py`.
`errNoEq` / `errNoRate` are the two `RuntimeError` raises; `tooFew n` prints
the "Not enough aligned observations" message and calls `sys.exit(0)` without
writing the regression artifact; `regression n` fits the OLS model and writes
`reports/tables/baseline_regression.txt`. -/
inductive A3Outcome where
  | errNoEq
  | errNoRate
  | tooFew (n : Nat)
  | regression (n : Nat)
deriving DecidableEq

/-- Column selection, return transform and sample-size gate of `main`
(lines 141-179). -/
def analyze (df : ADF) : A3Outcome :=
  match pick_first df.names "eq_" with
  | none => .errNoEq
  | some eqc =>
    match pickRate df.names with
    | none => .errNoRate
    | some rc =>
      let y := ensure_returns (df.col eqc)
      let x := df.col rc
      let n := countAligned y.shape (x.map Option.isSome)
      if n < 30 then .tooFew n else .regression n

/-! ## Stage 3: volatility lookup (`_find_or_build_vol`) -/

/-- The exact-name shortlist tried first by `_find_or_build_vol`. -/
def preferredVolNames : List String :=
  ["vol_21", "volatility_21", "rolling_vol_21", "vol21", "vol_1m", "rolling_vol", "vol"]

/-- The generic scan predicate: lower-cased name contains both "vol" and "21". -/
def hasVol21 (c : String) : Bool :=
  pyInStr "vol" (pyLower c) && pyInStr "21" (pyLower c)

/-- Result of `_find_or_build_vol`: an existing dataset column used as-is, or a
volatility computed from the return column (`computed src` denotes
`src.rolling(21).std()`; its numeric content is `VolResult.valuesR`). -/
inductive VolResult where
  | existing (name : String) (vals : List (Option ℚ))
  | computed (src : List (Option ℚ))
deriving DecidableEq

/-- `_find_or_build_vol`: exact-name shortlist first, then any column whose
lower-cased name contains "vol" and "21", else build from the return column. -/
def find_or_build_vol (df : ADF) (retCol : String) : VolResult :=
  match preferredVolNames.find? (fun n => df.names.contains n) with
  | some n => .existing n (df.col n)
  | none =>
    match df.names.find? hasVol21 with
    | some c => .existing c (df.col c)
    | none => .computed (df.col retCol)

/-- Sample variance with one delta degree of freedom (`ddof=1`), the square of
pandas' rolling `std` on a full window. -/
def sampleVarQ (l : List ℚ) : ℚ :=
  let n : ℚ := l.length
  let m := l.sum / n
  (l.map (fun x => (x - m) ^ 2)).sum / (n - 1)

/-- Variance content of `src.rolling(21).std()`: entry `t` is defined when
`t ≥ 20` and the 21 trailing entries are all present (`min_periods` defaults
to the window size), and is then their sample variance. -/
def rollingVar21 (s : List (Option ℚ)) : List (Option ℚ) :=
  (List.range s.length).map (fun t =>
    if t < 20 then none
    else
      let w := (s.drop (t - 20)).take 21
      if w.all Option.isSome then some (sampleVarQ (w.filterMap id)) else none)

/-- Real-number semantics of a volatility result: an existing column embeds
into `ℝ`; a computed one is the square root of the rolling sample variance,
i.e. the 21-observation trailing standard deviation. -/
noncomputable def VolResult.valuesR : VolResult → List (Option Real)
  | .existing _ v => v.map (Option.map (fun q : ℚ => (q : Real)))
  | .computed src => (rollingVar21 src).map (Option.map (fun q : ℚ => Real.sqrt (q : Real)))

/-! ## General helper lemmas -/

/-- A successful `find?` returns the first element satisfying the predicate. -/
lemma find?_first {α : Type} {p : α → Bool} :
    ∀ {l : List α} {a : α}, l.find? p = some a →
      ∃ i : Nat, l[i]? = some a ∧ p a = true ∧
        ∀ j : Nat, j < i → ∀ b, l[j]? = some b → p b = false := by
  intro l
  induction l with
  | nil => intro a h; simp at h
  | cons x xs ih =>
    intro a h
    by_cases hp : p x = true
    · rw [List.find?_cons_of_pos _ hp] at h
      obtain rfl : x = a := by injection h
      exact ⟨0, by simp, hp, by omega⟩
    · rw [List.find?_cons_of_neg _ (by simpa using hp)] at h
      obtain ⟨i, hget, hpa, hbefore⟩ := ih h
      refine ⟨i + 1, by simpa using hget, hpa, ?_⟩
      intro j hj b hb
      match j with
      | 0 => simp at hb; simpa [hb] using hp
      | j + 1 => exact hbefore j (by omega) b (by simpa using hb)

/-- `min?` on rationals returns a member below every member. -/
lemma minQ_spec {l : List ℚ} {a : ℚ} (h : l.min? = some a) :
    a ∈ l ∧ ∀ b, b ∈ l → a ≤ b :=
  ⟨List.min?_mem (fun a b => min_choice a b) h,
   (List.le_min?_iff (fun _ _ _ => le_min_iff) h).1 le_rfl⟩

/-- Nonempty lists have a `min?`. -/
lemma minQ_isSome {l : List ℚ} (h : l ≠ []) : ∃ a, l.min? = some a := by
  cases hm : l.min? with
  | none => exact absurd (List.min?_eq_none_iff.1 hm) h
  | some a => exact ⟨a, rfl⟩

/-- `npMedian` of the empty list is `NaN`. -/
lemma npMedian_nil : npMedian [] = none := rfl

/-- A defined `npMedian` forces a nonempty input. -/
lemma ne_nil_of_npMedian_eq_some {l : List ℚ} {m : ℚ} (h : npMedian l = some m) :
    l ≠ [] := by
  intro hl; subst hl; simp [npMedian_nil] at h

/-! ## C10 -/

/-- C10: `_ensure_returns` is total on degenerate inputs: a series with no
non-missing numeric entry has a NaN (non-finite) median absolute value, so the
series is returned unchanged (no exception, no log-differencing). -/
theorem C10_degenerate_series_unchanged (s : List (Option ℚ))
    (h : presentVals s = []) : ensure_returns s = .unchanged s := by
  have habs : absVals s = [] := by simp [absVals, h]
  have : npMedian (absVals s) = none := by rw [habs]; rfl
  simp [ensure_returns, this]

/-- Witness for C10 at a concrete all-missing series. -/
theorem C10_witness :
    presentVals [none, none] = [] ∧
      ensure_returns [none, none] = .unchanged [none, none] :=
  ⟨by decide, C10_degenerate_series_unchanged [none, none] (by decide)⟩

/-! ## C2 -/

/-- C2: the return-transformation boundary of `_ensure_returns`.  If the median
absolute value of the non-missing entries is at most 5, or some non-missing
entry is not strictly positive, the series is used unchanged (its real
content is just the series itself); if the median absolute value exceeds 5
and every non-missing entry is strictly positive, the series is replaced by
the first difference of its natural logarithm. -/
theorem C2_return_transform_boundary (s : List (Option ℚ)) :
    (((∃ m, npMedian (absVals s) = some m ∧ m ≤ 5) ∨
        (∃ q, q ∈ presentVals s ∧ q ≤ 0)) →
      ensure_returns s = .unchanged s ∧
        (ensure_returns s).valuesR = s.map (Option.map (fun q : ℚ => (q : Real))))
    ∧ (((∃ m, npMedian (absVals s) = some m ∧ 5 < m) ∧
          (∀ q, q ∈ presentVals s → 0 < q)) →
      ensure_returns s = .logReturns s ∧
        (ensure_returns s).valuesR =
          diffSeries (s.map (Option.map (fun q : ℚ => Real.log (q : Real))))) := by
  constructor
  · rintro (⟨m, hm, hle⟩ | ⟨q, hq, hqle⟩)
    · have : ensure_returns s = .unchanged s := by
        cases hmin : nanmin s with
        | none => simp [ensure_returns, hm, hmin]
        | some mn =>
          have : ¬ (5 < m ∧ 0 < mn) := by rintro ⟨h5, _⟩; exact absurd hle (not_le.2 h5)
          simp [ensure_returns, hm, hmin, this]
      exact ⟨this, by rw [this]; rfl⟩
    · have : ensure_returns s = .unchanged s := by
        cases hm : npMedian (absVals s) with
        | none => simp [ensure_returns, hm]
        | some m =>
          cases hmin : nanmin s with
          | none => simp [ensure_returns, hm, hmin]
          | some mn =>
            have hmem := (minQ_spec hmin).2 q hq
            have : ¬ (5 < m ∧ 0 < mn) := by
              rintro ⟨_, hpos⟩; exact absurd (le_trans hmem hqle) (not_le.2 hpos)
            simp [ensure_returns, hm, hmin, this]
      exact ⟨this, by rw [this]; rfl⟩
  · rintro ⟨⟨m, hm, h5⟩, hpos⟩
    have hne : presentVals s ≠ [] := by
      intro hnil
      exact ne_nil_of_npMedian_eq_some hm (by simp [absVals, hnil])
    obtain ⟨mn, hmin⟩ := minQ_isSome hne
    have hmnpos : 0 < mn := hpos mn (minQ_spec hmin).1
    have : ensure_returns s = .logReturns s := by
      simp [ensure_returns, hm, nanmin, hmin, h5, hmnpos]
    exact ⟨this, by rw [this]; rfl⟩

/-- Witness for C2: a price-like series (median absolute value 100 > 5, all
entries positive) is log-differenced; the degenerate branch is exercised by a
return-like series (median 1 ≤ 5). -/
theorem C2_witness :
    (ensure_returns [some 100, some 101, some 99] =
        .logReturns [some 100, some 101, some 99]) ∧
      ensure_returns [some 1, some 1, some 1] = .unchanged [some 1, some 1, some 1] :=
  ⟨((C2_return_transform_boundary [some 100, some 101, some 99]).2
      ⟨⟨100, by decide, by decide⟩, by decide⟩).1,
   ((C2_return_transform_boundary [some 1, some 1, some 1]).1
      (Or.inl ⟨1, by decide, by decide⟩)).1⟩

/-! ## C3 -/

/-- C3: the sample-size gate of the analyzer.  Once an equity column and a rate
column have been picked, let `n` be the number of paired observations left
after dropping rows missing in either series: with `n < 30` (in particular
`n = 29`) the stage stops via the informational `tooFew` path (message plus
`sys.exit(0)`, no regression artifact); with `30 ≤ n` (in particular
`n = 30`) the regression is fitted and the artifact written. -/
theorem C3_sample_size_gate (df : ADF) (eqc rc : String)
    (h1 : pick_first df.names "eq_" = some eqc)
    (h2 : pickRate df.names = some rc) :
    (countAligned (ensure_returns (df.col eqc)).shape ((df.col rc).map Option.isSome) < 30 →
      analyze df = .tooFew
        (countAligned (ensure_returns (df.col eqc)).shape ((df.col rc).map Option.isSome)))
    ∧ (30 ≤ countAligned (ensure_returns (df.col eqc)).shape ((df.col rc).map Option.isSome) →
      analyze df = .regression
        (countAligned (ensure_returns (df.col eqc)).shape ((df.col rc).map Option.isSome))) := by
  constructor
  · intro hlt
    simp [analyze, h1, h2, hlt]
  · intro hge
    simp [analyze, h1, h2, Nat.not_lt.2 hge]

/-- Concrete dataset with exactly 29 complete paired observations. -/
def adf29 : ADF :=
  ⟨[("eq_a", List.replicate 29 (some 1)), ("d_rate_b", List.replicate 29 (some 1))]⟩

/-- Concrete dataset with exactly 30 complete paired observations (the rate
column has one missing entry, the equity column 31 present ones). -/
def adf30 : ADF :=
  ⟨[("eq_a", List.replicate 31 (some 1)),
    ("d_rate_b", none :: List.replicate 30 (some 1))]⟩

/-- Witness for C3: 29 aligned observations stop the stage, 30 run the
regression. -/
theorem C3_witness :
    analyze adf29 = .tooFew 29 ∧ analyze adf30 = .regression 30 := by
  constructor
  · have h := (C3_sample_size_gate adf29 "eq_a" "d_rate_b" (by decide) (by decide)).1
    have hn : countAligned (ensure_returns (adf29.col "eq_a")).shape
        ((adf29.col "d_rate_b").map Option.isSome) = 29 := by decide
    rw [hn] at h
    exact h (by decide)
  · have h := (C3_sample_size_gate adf30 "eq_a" "d_rate_b" (by decide) (by decide)).2
    have hn : countAligned (ensure_returns (adf30.col "eq_a")).shape
        ((adf30.col "d_rate_b").map Option.isSome) = 30 := by decide
    rw [hn] at h
    exact h (by decide)

/-! ## C6 -/

/-- `c` is the first element of `cols` satisfying `p`. -/
def isFirstMatch (cols : List String) (p : String → Bool) (c : String) : Prop :=
  ∃ i : Nat, cols[i]? = some c ∧ p c = true ∧
    ∀ j : Nat, j < i → ∀ b, cols[j]? = some b → p b = false

/-- C6: analyzer column selection.  The equity series is the first column whose
name starts with `eq_`, and the `RuntimeError` for missing equity columns is
raised exactly when no column name starts with `eq_`; the x series is the
first `d_rate_` column, falling back to the first `rate_` column when no
`d_rate_` column exists, and the `RuntimeError` for missing rate columns is
raised exactly when (given some equity column exists) no column name starts
with `d_rate_` or `rate_`. -/
theorem C6_column_selection (df : ADF) :
    (analyze df = .errNoEq ↔ ∀ c ∈ df.names, pyStartsWith c "eq_" = false)
    ∧ (∀ c, pick_first df.names "eq_" = some c →
        isFirstMatch df.names (fun s => pyStartsWith s "eq_") c)
    ∧ (∀ c, pick_first df.names "d_rate_" = some c → pickRate df.names = some c)
    ∧ (pick_first df.names "d_rate_" = none →
        pickRate df.names = pick_first df.names "rate_")
    ∧ (∀ c, pickRate df.names = some c →
        isFirstMatch df.names (fun s => pyStartsWith s "d_rate_") c ∨
          (pick_first df.names "d_rate_" = none ∧
            isFirstMatch df.names (fun s => pyStartsWith s "rate_") c))
    ∧ ((∃ c, pick_first df.names "eq_" = some c) →
        (analyze df = .errNoRate ↔
          ∀ c ∈ df.names, pyStartsWith c "d_rate_" = false ∧
            pyStartsWith c "rate_" = false)) := by
  refine ⟨?_, ?_, ?_, ?_, ?_, ?_⟩
  · constructor
    · intro h
      cases heq : pick_first df.names "eq_" with
      | none =>
        intro c hc
        have := List.find?_eq_none.1 heq c hc
        simpa using this
      | some c =>
        exfalso
        cases hr : pickRate df.names with
        | none => simp [analyze, heq, hr] at h
        | some rc =>
          by_cases hn : countAligned (ensure_returns (df.col c)).shape
              ((df.col rc).map Option.isSome) < 30 <;>
            simp [analyze, heq, hr, hn] at h
    · intro h
      have heq : pick_first df.names "eq_" = none :=
        List.find?_eq_none.2 (fun c hc => by simp [h c hc])
      simp [analyze, heq]
  · intro c hc
    exact find?_first hc
  · intro c hc
    simp [pickRate, hc]
  · intro hnone
    simp [pickRate, hnone]
  · intro c hc
    unfold pickRate at hc
    cases hd : pick_first df.names "d_rate_" with
    | some c' =>
      rw [hd] at hc
      obtain rfl : c' = c := by injection hc
      exact Or.inl (find?_first hd)
    | none =>
      rw [hd] at hc
      exact Or.inr ⟨rfl, find?_first hc⟩
  · rintro ⟨c, hc⟩
    constructor
    · intro h
      cases hr : pickRate df.names with
      | some rc =>
        exfalso
        by_cases hn : countAligned (ensure_returns (df.col c)).shape
            ((df.col rc).map Option.isSome) < 30 <;>
          simp [analyze, hc, hr, hn] at h
      | none =>
        unfold pickRate at hr
        cases hd : pick_first df.names "d_rate_" with
        | some c' => rw [hd] at hr; cases hr
        | none =>
          rw [hd] at hr
          intro b hb
          constructor
          · simpa using List.find?_eq_none.1 hd b hb
          · simpa using List.find?_eq_none.1 hr b hb
    · intro h
      have hr : pickRate df.names = none := by
        have h1 : pick_first df.names "d_rate_" = none :=
          List.find?_eq_none.2 (fun b hb => by simp [(h b hb).1])
        have h2 : pick_first df.names "rate_" = none :=
          List.find?_eq_none.2 (fun b hb => by simp [(h b hb).2])
        simp [pickRate, h1, h2]
      simp [analyze, hc, hr]

/-- Concrete dataset exercising the column-selection rules. -/
def adfPick : ADF :=
  ⟨[("date", []), ("eq_SPX", []), ("eq_IXIC", []), ("rate_3m", []), ("d_rate_3m", [])]⟩

/-- Witness for C6 at a concrete dataset: `eq_SPX` is chosen as the first
`eq_` column and `d_rate_3m` as the first `d_rate_` column even though a
`rate_` column appears earlier. -/
theorem C6_witness :
    isFirstMatch adfPick.names (fun s => pyStartsWith s "eq_") "eq_SPX" ∧
      pickRate adfPick.names = some "d_rate_3m" :=
  ⟨(C6_column_selection adfPick).2.1 "eq_SPX" (by decide),
   (C6_column_selection adfPick).2.2.1 "d_rate_3m" (by decide)⟩

/-! ## C1 -/

/-- Dataset with a column named exactly `vol`: its name contains "vol" but not
"21", yet `_find_or_build_vol` selects it through the exact-name shortlist. -/
def dfVol : ADF :=
  ⟨[("eq_SPX", [some 1]), ("d_rate_3m", [some 2]), ("vol", [some 3])]⟩

/-- C1 counterexample: the claimed "existing column iff some column name
contains both vol and 21" fails — `dfVol` has no column whose lower-cased
name contains both "vol" and "21", yet the volatility series used is the
existing column `vol` (selected by the exact-name shortlist), not the
computed 21-observation trailing standard deviation. -/
theorem C1_counterexample :
    find_or_build_vol dfVol "eq_SPX" = .existing "vol" [some 3] ∧
      ∀ c ∈ dfVol.names, hasVol21 c = false := by
  decide

/-- C1 (amended): the volatility series for the secondary chart is an existing
column of the dataset iff the dataset has a column named exactly one of
`vol_21, volatility_21, rolling_vol_21, vol21, vol_1m, rolling_vol, vol`, or
a column whose lower-cased name contains both "vol" and "21"; when neither
kind of column exists, it is computed from the return column, with numeric
content the 21-observation trailing standard deviation (square root of the
rolling sample variance) of that series. -/
theorem C1_volatility_lookup (df : ADF) (retCol : String) :
    (((∃ n ∈ preferredVolNames, n ∈ df.names) ∨ (∃ c ∈ df.names, hasVol21 c = true)) ↔
      ∃ n v, find_or_build_vol df retCol = .existing n v)
    ∧ (¬ ((∃ n ∈ preferredVolNames, n ∈ df.names) ∨ (∃ c ∈ df.names, hasVol21 c = true)) →
      find_or_build_vol df retCol = .computed (df.col retCol) ∧
        (find_or_build_vol df retCol).valuesR =
          (rollingVar21 (df.col retCol)).map
            (Option.map (fun q : ℚ => Real.sqrt (q : Real)))) := by
  have hcase :
      ∀ hn : ((∃ n ∈ preferredVolNames, n ∈ df.names) ∨ (∃ c ∈ df.names, hasVol21 c = true)) →
        False,
      find_or_build_vol df retCol = .computed (df.col retCol) := by
    intro hn
    have h1 : preferredVolNames.find? (fun n => df.names.contains n) = none := by
      refine List.find?_eq_none.2 (fun n hmem => ?_)
      intro hcontains
      exact hn (Or.inl ⟨n, hmem, by simpa using hcontains⟩)
    have h2 : df.names.find? hasVol21 = none := by
      refine List.find?_eq_none.2 (fun c hmem => ?_)
      intro hpred
      exact hn (Or.inr ⟨c, hmem, hpred⟩)
    unfold find_or_build_vol
    rw [h1, h2]
  constructor
  · constructor
    · intro h
      cases hf : preferredVolNames.find? (fun n => df.names.contains n) with
      | some n => exact ⟨n, df.col n, by unfold find_or_build_vol; rw [hf]⟩
      | none =>
        cases hg : df.names.find? hasVol21 with
        | some c => exact ⟨c, df.col c, by unfold find_or_build_vol; rw [hf, hg]⟩
        | none =>
          exfalso
          rcases h with ⟨n, hmem, hin⟩ | ⟨c, hmem, hpred⟩
          · exact absurd (List.find?_eq_none.1 hf n hmem) (by simpa using hin)
          · exact absurd (List.find?_eq_none.1 hg c hmem) (by simp [hpred])
    · rintro ⟨n, v, hex⟩
      unfold find_or_build_vol at hex
      cases hf : preferredVolNames.find? (fun m => df.names.contains m) with
      | some m =>
        exact Or.inl ⟨m, List.mem_of_find?_eq_some hf,
          by simpa using List.find?_some hf⟩
      | none =>
        rw [hf] at hex
        cases hg : df.names.find? hasVol21 with
        | some c =>
          exact Or.inr ⟨c, List.mem_of_find?_eq_some hg, List.find?_some hg⟩
        | none => rw [hg] at hex; cases hex
  · intro hn
    have h := hcase (fun hh => hn hh)
    exact ⟨h, by rw [h]; rfl⟩

/-- Witness for C1 (amended): a dataset with no volatility-like column falls
back to the computed rolling standard deviation of the return column. -/
theorem C1_witness :
    find_or_build_vol adf29 "eq_a" = .computed (adf29.col "eq_a") :=
  ((C1_volatility_lookup adf29 "eq_a").2 (by decide)).1

/-! ## C7 -/

/-- C7: the missing-raw-file guard of `02_build_dataset.py`.  The stage takes
the `missingInput` exit (instructional message, `sys.exit(0)`, no artifact
written) exactly when `_find_file` resolves neither extension for rates or
for equity; `_find_file` fails exactly when both the parquet and the csv
files are absent; and on that path the outcome does not depend on the
content of either table (nothing is read). -/
theorem C7_missing_input_guard {V : Type} [Sub V] (st : RawStore)
    (ratesRaw equityRaw : RawDF V) :
    (main02 st ratesRaw equityRaw = .missingInput ↔
      find_file st.ratesParquet st.ratesCsv = none ∨
        find_file st.equityParquet st.equityCsv = none)
    ∧ (∀ hp hc : Bool, find_file hp hc = none ↔ hp = false ∧ hc = false)
    ∧ (find_file st.ratesParquet st.ratesCsv = none ∨
        find_file st.equityParquet st.equityCsv = none →
      ∀ ratesRaw' equityRaw' : RawDF V,
        main02 st ratesRaw' equityRaw' = .missingInput) := by
  refine ⟨?_, ?_, ?_⟩
  · cases hr : find_file st.ratesParquet st.ratesCsv with
    | none => simp [main02, hr]
    | some kr =>
      cases he : find_file st.equityParquet st.equityCsv with
      | none => simp [main02, hr, he]
      | some ke =>
        simp only [main02, hr, he]
        cases hb : build_dataset ratesRaw equityRaw <;> simp [hb]
  · intro hp hc
    cases hp <;> cases hc <;> simp [find_file]
  · intro h ratesRaw' equityRaw'
    rcases h with h | h
    · simp [main02, h]
    · cases hr : find_file st.ratesParquet st.ratesCsv <;> simp [main02, hr, h]

/-- Witness for C7: with `rates.parquet`/`rates.csv` both absent but equity
present, the stage exits through the guard. -/
theorem C7_witness :
    main02 ⟨false, false, true, false⟩ (V := Int) ⟨[], []⟩ ⟨[], []⟩ = .missingInput :=
  (C7_missing_input_guard ⟨false, false, true, false⟩ ⟨[], []⟩ ⟨[], []⟩).1.2
    (Or.inl (by decide))

/-! ## C9 -/

/-- C9: dataset loading in the analyzer.  An existing but unreadable
`dataset.parquet` behaves exactly like an absent one (the loader falls
through to `dataset.csv`); in particular with a readable csv the loader
still returns its dataframe.  The stage takes the informational exit
(message plus `sys.exit(0)`, no exception) precisely when the loader yields
no dataframe at all or the loaded dataframe is empty. -/
theorem C9_loader_fallback (csv : FileState) (df : ADF) :
    (load_dataset .unreadable csv = load_dataset .absent csv)
    ∧ (load_dataset .unreadable (.readable df) = some df)
    ∧ (∀ pq c, main03Gate pq c = none ↔
        load_dataset pq c = none ∨
          ∃ e, load_dataset pq c = some e ∧ e.isEmptyDF = true) := by
  refine ⟨?_, rfl, ?_⟩
  · cases csv <;> rfl
  · intro pq c
    cases hl : load_dataset pq c with
    | none => simp [main03Gate, hl]
    | some e =>
      by_cases he : e.isEmptyDF = true
      · simp [main03Gate, hl, he]
      · simp only [main03Gate, hl]
        rw [if_neg (by simpa using he)]
        simp [he]

/-- Witness for C9: an unreadable parquet with a readable, nonempty csv lets
the analysis proceed with the csv content. -/
theorem C9_witness :
    load_dataset .unreadable (.readable adf29) = some adf29 ∧
      (main03Gate .unreadable (.readable adf29) = none ↔
        load_dataset .unreadable (.readable adf29) = none ∨
          ∃ e, load_dataset .unreadable (.readable adf29) = some e ∧
            e.isEmptyDF = true) :=
  ⟨(C9_loader_fallback (.readable adf29) adf29).2.1,
   (C9_loader_fallback (.readable adf29) adf29).2.2 .unreadable (.readable adf29)⟩

/-! ## Structural lemmas about the aligner pipeline -/

/-- Shape of a successful `keep_numeric`. -/
lemma keep_numeric_ok {V : Type} {s : StdDF V} {n : NumDF V}
    (h : keep_numeric s = .ok n) :
    n.names = (s.header.filter (fun p => p.2)).map (fun p => p.1) ∧
      n.rows = s.rows.map (fun r => (r.1, selectNum s.header r.2)) ∧
      n.names ≠ [] := by
  unfold keep_numeric at h
  by_cases he : ((s.header.filter (fun p => p.2)).map (fun p => p.1)).isEmpty = true
  · rw [if_pos he] at h; cases h
  · rw [if_neg he] at h
    injection h with h
    rw [← h]
    exact ⟨rfl, rfl, by simpa [List.isEmpty_iff] using he⟩

/-- Shape of a successful `standardize`. -/
lemma standardize_eq {V : Type} {df : RawDF V} {i : Nat} (h : dateColIdx df = some i) :
    standardize df =
      some ⟨df.header.eraseIdx i,
        (df.rows.filterMap (rowKeyed i)).insertionSort (fun a b => a.1 ≤ b.1)⟩ := by
  simp [standardize, h]

/-- Standardised rows are a permutation of the date-keyed parseable rows. -/
lemma std_rows_perm {V : Type} {df : RawDF V} {i : Nat} {sd : StdDF V}
    (hi : dateColIdx df = some i) (h : standardize df = some sd) :
    sd.rows.Perm (df.rows.filterMap (rowKeyed i)) := by
  rw [standardize_eq hi] at h
  injection h with h
  rw [← h]
  exact List.perm_insertionSort _ _

/-- The standardised index is sorted ascending. -/
lemma std_rows_sorted {V : Type} {df : RawDF V} {i : Nat} {sd : StdDF V}
    (hi : dateColIdx df = some i) (h : standardize df = some sd) :
    List.Sorted (fun a b => a ≤ b) (sd.rows.map (fun r => r.1)) := by
  rw [standardize_eq hi] at h
  injection h with h
  rw [← h]
  haveI : IsTotal (Int × List (Cell V)) (fun a b => a.1 ≤ b.1) :=
    ⟨fun a b => le_total a.1 b.1⟩
  haveI : IsTrans (Int × List (Cell V)) (fun a b => a.1 ≤ b.1) :=
    ⟨fun _ _ _ hab hbc => le_trans hab hbc⟩
  have hs := List.sorted_insertionSort (fun (a b : Int × List (Cell V)) => a.1 ≤ b.1)
    (df.rows.filterMap (rowKeyed i))
  rw [List.Sorted, List.pairwise_map]
  exact hs

/-- The date a keyed row carries is the parse of the row's date entry. -/
lemma rowKeyed_map_fst {V : Type} (i : Nat) (r : List (Cell V)) :
    (rowKeyed i r).map (fun p => p.1) = (r[i]? >>= Cell.date) := by
  unfold rowKeyed
  cases h : r[i]? >>= Cell.date <;> simp [h]

/-- The standardised index is a permutation of the parseable dates. -/
lemma std_index_perm_parseable {V : Type} {df : RawDF V} {i : Nat} {sd : StdDF V}
    (hi : dateColIdx df = some i) (h : standardize df = some sd) :
    (sd.rows.map (fun r => r.1)).Perm (parseableDates df) := by
  have hp := (std_rows_perm hi h).map (fun r : Int × List (Cell V) => r.1)
  refine hp.trans ?_
  rw [List.map_filterMap]
  unfold parseableDates
  rw [hi]
  simp only [rowKeyed_map_fst]
  exact List.Perm.refl _

/-- `keep_numeric` and the name markers leave the date index unchanged. -/
lemma addPre_keep_index {V : Type} {s : StdDF V} {n : NumDF V}
    (h : keep_numeric s = .ok n) (p : String) :
    (n.addPre p).rows.map (fun r => r.1) = s.rows.map (fun r => r.1) := by
  obtain ⟨-, hrows, -⟩ := keep_numeric_ok h
  show n.rows.map _ = _
  rw [hrows, List.map_map]
  rfl

/-- A date looks up successfully iff it is in the index. -/
lemma lookup_isSome_iff {V : Type} (n : NumDF V) (d : Int) :
    (n.lookup d).isSome = true ↔ d ∈ n.index := by
  unfold NumDF.lookup NumDF.index
  constructor
  · intro hs
    cases hf : n.rows.find? (fun r => r.1 == d) with
    | none => rw [hf] at hs; simp at hs
    | some r =>
      have hd : r.1 = d := by simpa using List.find?_some hf
      exact List.mem_map.2 ⟨r, List.mem_of_find?_eq_some hf, hd⟩
  · intro hmem
    obtain ⟨r, hmemr, hfst⟩ := List.mem_map.1 hmem
    have hsome : (n.rows.find? (fun r => r.1 == d)).isSome = true :=
      List.find?_isSome.2 ⟨r, hmemr, by simp [hfst]⟩
    cases hf : n.rows.find? (fun r => r.1 == d) with
    | none => rw [hf] at hsome; simp at hsome
    | some r' => rfl

/-- A successful lookup returns a row of the table. -/
lemma lookup_mem {V : Type} {n : NumDF V} {d : Int} {v : List (Option V)}
    (h : n.lookup d = some v) : (d, v) ∈ n.rows := by
  unfold NumDF.lookup at h
  cases hf : n.rows.find? (fun r => r.1 == d) with
  | none => rw [hf] at h; cases h
  | some row =>
    rw [hf] at h
    injection h with h
    have hmem := List.mem_of_find?_eq_some hf
    have hd : row.1 = d := by simpa using List.find?_some hf
    have hrow : row = (d, v) := by
      obtain ⟨a, b⟩ := row
      simp only at hd h
      rw [hd, h]
    rwa [hrow] at hmem

/-- In a table with duplicate-free keys, a key determines its payload. -/
lemma nodup_keys_eq {β : Type} :
    ∀ {l : List (Int × β)}, (l.map (fun p => p.1)).Nodup →
      ∀ {d : Int} {v v' : β}, (d, v) ∈ l → (d, v') ∈ l → v = v' := by
  intro l
  induction l with
  | nil => intro _ d v v' h; simp at h
  | cons a t ih =>
    intro hnd d v v' h1 h2
    rw [List.map_cons, List.nodup_cons] at hnd
    rcases List.mem_cons.1 h1 with h1 | h1 <;> rcases List.mem_cons.1 h2 with h2 | h2
    · exact congrArg Prod.snd (h1.trans h2.symm)
    · exfalso
      exact hnd.1 (by rw [← h1]; exact List.mem_map.2 ⟨(d, v'), h2, rfl⟩)
    · exfalso
      exact hnd.1 (by rw [← h2]; exact List.mem_map.2 ⟨(d, v), h1, rfl⟩)
    · exact ih hnd.2 h1 h2

/-- With duplicate-free keys, membership determines the lookup result. -/
lemma mem_lookup_unique {V : Type} {n : NumDF V} (hnd : n.index.Nodup) {d : Int}
    {v : List (Option V)} (h : (d, v) ∈ n.rows) : n.lookup d = some v := by
  have hs : (n.lookup d).isSome = true :=
    (lookup_isSome_iff n d).2 (List.mem_map.2 ⟨(d, v), h, rfl⟩)
  cases hl : n.lookup d with
  | none => rw [hl] at hs; cases hs
  | some v' =>
    have hv' := lookup_mem hl
    rw [nodup_keys_eq hnd hv' h]

/-- Key projection of a date-keyed `zipWith`. -/
lemma map_fst_zipWith_keyed {α γ : Type} (g : (Int × α) → (Int × α) → γ) :
    ∀ (l2 l1 : List (Int × α)), l2.length ≤ l1.length →
      (List.zipWith (fun prev cur => (cur.1, g prev cur)) l1 l2).map
          (fun p : Int × γ => p.1) =
        l2.map (fun p => p.1) := by
  intro l2
  induction l2 with
  | nil => intro l1 _; simp
  | cons b t ih =>
    intro l1 hlen
    cases l1 with
    | nil => simp at hlen
    | cons a s =>
      simp only [List.zipWith_cons_cons, List.map_cons]
      rw [ih s (by simpa using hlen)]

/-- First differences leave the date index unchanged. -/
lemma diffN_index {V : Type} [Sub V] (n : NumDF V) : n.diffN.index = n.index := by
  unfold NumDF.diffN NumDF.index
  cases hr : n.rows with
  | nil => simp
  | cons r0 rest =>
    simp only [hr, List.map_cons]
    rw [show (r0 :: rest).tail = rest from rfl]
    rw [map_fst_zipWith_keyed (fun prev cur => List.zipWith diffPair prev.2 cur.2) rest
      (r0 :: rest) (by simp)]

/-- Characterisation of a successful row join. -/
lemma joinRow_eq_some {V : Type} {r dr : NumDF V} {row out : Int × List (Option V)} :
    joinRow r dr row = some out ↔
      ∃ rv dv, r.lookup row.1 = some rv ∧ dr.lookup row.1 = some dv ∧
        out = (row.1, row.2 ++ rv ++ dv) := by
  unfold joinRow
  cases hr : r.lookup row.1 <;> cases hdr : dr.lookup row.1 <;> simp [eq_comm]

/-- Membership in the final (joined, complete-row) index. -/
lemma mem_final_index_iff {V : Type} (e r dr : NumDF V) (d : Int) :
    d ∈ ((concatInner e r dr).dropna).index ↔
      ∃ v rv dv, (d, v) ∈ e.rows ∧ r.lookup d = some rv ∧ dr.lookup d = some dv ∧
        ((v ++ rv ++ dv).all Option.isSome) = true := by
  unfold NumDF.index NumDF.dropna concatInner
  simp only [List.mem_map, List.mem_filter, List.mem_filterMap, joinRow_eq_some]
  constructor
  · rintro ⟨row, ⟨⟨a, hmem, rv, dv, hr, hdr, hout⟩, hall⟩, hfst⟩
    subst hout
    simp only at hfst hall
    subst hfst
    exact ⟨a.2, rv, dv, by simpa using hmem, hr, hdr, hall⟩
  · rintro ⟨v, rv, dv, hmem, hr, hdr, hall⟩
    exact ⟨(d, v ++ rv ++ dv), ⟨⟨(d, v), hmem, rv, dv, hr, hdr, rfl⟩, hall⟩, rfl⟩

/-- The joined index is a subsequence of the equity index. -/
lemma final_index_sublist {V : Type} (e r dr : NumDF V) :
    ((concatInner e r dr).dropna).index.Sublist e.index := by
  unfold NumDF.index NumDF.dropna concatInner
  refine List.Sublist.trans (List.Sublist.map _ (List.filter_sublist _)) ?_
  show ((e.rows.filterMap (joinRow r dr)).map (fun p => p.1)).Sublist
    (e.rows.map (fun p => p.1))
  induction e.rows with
  | nil => simp
  | cons a t ih =>
    cases hj : joinRow r dr a with
    | none =>
      rw [List.filterMap_cons_none hj, List.map_cons]
      exact ih.cons a.1
    | some out =>
      have hfst : out.1 = a.1 := by
        obtain ⟨rv, dv, -, -, hout⟩ := joinRow_eq_some.1 hj
        rw [hout]
      rw [List.filterMap_cons_some hj, List.map_cons, List.map_cons, hfst]
      exact ih.cons₂ a.1

/-! ## C8 -/

/-- C8: date-column resolution and standardisation in the aligner.  The chosen
date column is the first exact match in the ordered candidate list
`date, Date, DATE, datetime, Datetime, DATETIME`, and the table's first
column when no candidate matches; the standardised rows are exactly the rows
whose date entry parses (keyed by the parsed date), and the resulting index
is sorted ascending. -/
theorem C8_date_column_resolution {V : Type} (df : RawDF V) :
    (∀ c, infer_date_col df.names = some c →
        isFirstMatch dateCandidates (fun n => df.names.contains n) c ∨
          ((∀ c' ∈ dateCandidates, c' ∉ df.names) ∧ df.names.head? = some c))
    ∧ ((∀ c' ∈ dateCandidates, c' ∉ df.names) →
        infer_date_col df.names = df.names.head?)
    ∧ (∀ (i : Nat) (sd : StdDF V), dateColIdx df = some i → standardize df = some sd →
        sd.rows.Perm (df.rows.filterMap (rowKeyed i)) ∧
          (sd.rows.map (fun r => r.1)).Perm (parseableDates df) ∧
          List.Sorted (fun a b => a ≤ b) (sd.rows.map (fun r => r.1))) := by
  refine ⟨?_, ?_, ?_⟩
  · intro c h
    unfold infer_date_col at h
    cases hf : dateCandidates.find? (fun c => df.names.contains c) with
    | some c' =>
      rw [hf] at h
      injection h with h
      subst h
      exact Or.inl (find?_first hf)
    | none =>
      rw [hf] at h
      refine Or.inr ⟨?_, h⟩
      intro c' hc' hmem
      have := List.find?_eq_none.1 hf c' hc'
      simp at this
      exact this hmem
  · intro hno
    unfold infer_date_col
    cases hf : dateCandidates.find? (fun c => df.names.contains c) with
    | some c' =>
      exfalso
      have hmem := List.mem_of_find?_eq_some hf
      have hpred := List.find?_some hf
      exact hno c' hmem (by simpa using hpred)
    | none => rfl
  · intro i sd hi hsd
    exact ⟨std_rows_perm hi hsd, std_index_perm_parseable hi hsd,
      std_rows_sorted hi hsd⟩

/-- A raw table for exercising C8: a `Date` candidate column in second
position, one unparseable date, dates out of order. -/
def dfC8 : RawDF Int :=
  ⟨[("x", true), ("Date", false)],
   [[⟨none, some 5⟩, ⟨some 3, none⟩],
    [⟨none, some 6⟩, ⟨none, none⟩],
    [⟨none, some 7⟩, ⟨some 1, none⟩]]⟩

/-- The standardisation of `dfC8`: the unparseable row dropped, the rest
sorted by parsed date. -/
def sdC8 : StdDF Int :=
  ⟨[("x", true)], [(1, [⟨none, some 7⟩]), (3, [⟨none, some 5⟩])]⟩

/-- Witness for C8: on `dfC8` the candidate `Date` wins, the unparseably-dated
row is dropped and the index comes out sorted. -/
theorem C8_witness :
    isFirstMatch dateCandidates (fun n => dfC8.names.contains n) "Date" ∧
      (sdC8.rows.map (fun r => r.1)).Perm (parseableDates dfC8) ∧
      List.Sorted (fun a b => a ≤ b) (sdC8.rows.map (fun r => r.1)) :=
  ⟨((C8_date_column_resolution dfC8).1 "Date" (by decide)).resolve_right
      (fun hr => hr.1 "Date" (by decide) (by decide)),
   ((C8_date_column_resolution dfC8).2.2 1 sdC8 (by decide) (by decide)).2.1,
   ((C8_date_column_resolution dfC8).2.2 1 sdC8 (by decide) (by decide)).2.2⟩

/-! ## C4 -/

/-- A successful `standardize` forces a resolved date column. -/
lemma dateColIdx_of_standardize {V : Type} {df : RawDF V} {sd : StdDF V}
    (h : standardize df = some sd) : ∃ i, dateColIdx df = some i := by
  cases hi : dateColIdx df with
  | none => rw [standardize, hi] at h; cases h
  | some i => exact ⟨i, rfl⟩

/-- C4: the index of the aligned dataset.  Whenever the build succeeds (and the
two tables carry duplicate-free parseable dates), the dataset's index is
sorted ascending, and a date belongs to it iff it is a parseable date of
both raw tables and the joined row at that date (equity values, rate values
and first differences) is free of missing values. -/
theorem C4_aligned_index {V : Type} [Sub V] (ratesRaw equityRaw : RawDF V)
    (rs es : StdDF V) (r0 e0 ds : NumDF V)
    (hsr : standardize ratesRaw = some rs) (hse : standardize equityRaw = some es)
    (hkr : keep_numeric rs = .ok r0) (hke : keep_numeric es = .ok e0)
    (hnr : (parseableDates ratesRaw).Nodup) (hne : (parseableDates equityRaw).Nodup)
    (hds : build_dataset ratesRaw equityRaw = .ok ds) :
    List.Sorted (fun a b => a ≤ b) ds.index ∧
      ∀ d : Int, d ∈ ds.index ↔
        d ∈ parseableDates equityRaw ∧ d ∈ parseableDates ratesRaw ∧
          joinedComplete (e0.addPre "eq_") (r0.addPre "rate_")
            ((r0.addPre "rate_").diffN) d = true := by
  obtain ⟨ir, hir⟩ := dateColIdx_of_standardize hsr
  obtain ⟨ie, hie⟩ := dateColIdx_of_standardize hse
  have hds2 : ds = (concatInner (e0.addPre "eq_") (r0.addPre "rate_")
      ((r0.addPre "rate_").diffN)).dropna := by
    have heq : build_dataset ratesRaw equityRaw =
        .ok ((concatInner (e0.addPre "eq_") (r0.addPre "rate_")
          ((r0.addPre "rate_").diffN)).dropna) := by
      simp only [build_dataset, hsr, hse, hkr, hke]
    rw [heq] at hds
    injection hds with h
    exact h.symm
  have heIdx : (e0.addPre "eq_").index = es.rows.map (fun r => r.1) :=
    addPre_keep_index hke "eq_"
  have hrIdx : (r0.addPre "rate_").index = rs.rows.map (fun r => r.1) :=
    addPre_keep_index hkr "rate_"
  have hEperm : (e0.addPre "eq_").index.Perm (parseableDates equityRaw) := by
    rw [heIdx]; exact std_index_perm_parseable hie hse
  have hRperm : (r0.addPre "rate_").index.Perm (parseableDates ratesRaw) := by
    rw [hrIdx]; exact std_index_perm_parseable hir hsr
  have heNodup : (e0.addPre "eq_").index.Nodup := (hEperm.nodup_iff).2 hne
  constructor
  · rw [hds2]
    have hsorted : List.Sorted (fun a b => a ≤ b) (e0.addPre "eq_").index := by
      rw [heIdx]; exact std_rows_sorted hie hse
    exact List.Pairwise.sublist
      (final_index_sublist (e0.addPre "eq_") (r0.addPre "rate_")
        ((r0.addPre "rate_").diffN)) hsorted
  · intro d
    rw [hds2, mem_final_index_iff]
    constructor
    · rintro ⟨v, rv, dv, hmemv, hrv, hdv, hall⟩
      have hdE : d ∈ (e0.addPre "eq_").index := List.mem_map.2 ⟨(d, v), hmemv, rfl⟩
      have hdR : d ∈ (r0.addPre "rate_").index :=
        (lookup_isSome_iff _ d).1 (by rw [hrv]; rfl)
      have hlv : (e0.addPre "eq_").lookup d = some v := mem_lookup_unique heNodup hmemv
      refine ⟨hEperm.mem_iff.1 hdE, hRperm.mem_iff.1 hdR, ?_⟩
      unfold joinedComplete
      rw [hlv, hrv, hdv]
      exact hall
    · rintro ⟨-, -, hjc⟩
      unfold joinedComplete at hjc
      cases hle : (e0.addPre "eq_").lookup d with
      | none => rw [hle] at hjc; cases hjc
      | some ev =>
        cases hlr : (r0.addPre "rate_").lookup d with
        | none => rw [hle, hlr] at hjc; cases hjc
        | some rv =>
          cases hld : ((r0.addPre "rate_").diffN).lookup d with
          | none => rw [hle, hlr, hld] at hjc; cases hjc
          | some dv =>
            rw [hle, hlr, hld] at hjc
            exact ⟨ev, rv, dv, lookup_mem hle, rfl, rfl, hjc⟩

/-- Raw rates table for the C4/C5 witnesses: dates 1, 2, 3. -/
def raC4 : RawDF Int :=
  ⟨[("date", false), ("r3m", true)],
   [[⟨some 1, none⟩, ⟨none, some 10⟩],
    [⟨some 2, none⟩, ⟨none, some 12⟩],
    [⟨some 3, none⟩, ⟨none, some 13⟩]]⟩

/-- Raw equity table for the C4/C5 witnesses: dates 2, 3, 4, with a missing
value at date 3. -/
def eaC4 : RawDF Int :=
  ⟨[("date", false), ("SPX", true)],
   [[⟨some 2, none⟩, ⟨none, some 100⟩],
    [⟨some 3, none⟩, ⟨none, none⟩],
    [⟨some 4, none⟩, ⟨none, some 101⟩]]⟩

/-- Standardised rates for the witness. -/
def rsC4 : StdDF Int :=
  ⟨[("r3m", true)], [(1, [⟨none, some 10⟩]), (2, [⟨none, some 12⟩]), (3, [⟨none, some 13⟩])]⟩

/-- Standardised equity for the witness. -/
def esC4 : StdDF Int :=
  ⟨[("SPX", true)], [(2, [⟨none, some 100⟩]), (3, [⟨none, none⟩]), (4, [⟨none, some 101⟩])]⟩

/-- Numeric rates for the witness. -/
def r0C4 : NumDF Int :=
  ⟨["r3m"], [(1, [some 10]), (2, [some 12]), (3, [some 13])]⟩

/-- Numeric equity for the witness. -/
def e0C4 : NumDF Int :=
  ⟨["SPX"], [(2, [some 100]), (3, [none]), (4, [some 101])]⟩

/-- The aligned dataset the build produces on `raC4`/`eaC4`: only date 2
survives (date 3 has a missing equity value, date 1 is lost to differencing,
date 4 is not shared). -/
def dsC4 : NumDF Int :=
  ⟨["eq_SPX", "rate_r3m", "d_rate_r3m"], [(2, [some 100, some 12, some 2])]⟩

/-- Witness for C4 at the concrete pair of tables. -/
theorem C4_witness :
    List.Sorted (fun a b => a ≤ b) dsC4.index ∧
      ∀ d : Int, d ∈ dsC4.index ↔
        d ∈ parseableDates eaC4 ∧ d ∈ parseableDates raC4 ∧
          joinedComplete (e0C4.addPre "eq_") (r0C4.addPre "rate_")
            ((r0C4.addPre "rate_").diffN) d = true :=
  C4_aligned_index raC4 eaC4 rsC4 esC4 r0C4 e0C4 dsC4
    (by rfl) (by rfl) (by rfl) (by rfl) (by decide) (by decide) (by rfl)

/-! ## C5 -/

/-- The resolved date-column position is inside the header. -/
lemma dateColIdx_lt {V : Type} {df : RawDF V} {i : Nat}
    (h : dateColIdx df = some i) : i < df.header.length := by
  unfold dateColIdx at h
  cases hc : infer_date_col df.names with
  | none => rw [hc] at h; cases h
  | some c =>
    rw [hc] at h
    injection h with h
    subst h
    have hmem : c ∈ df.names := by
      unfold infer_date_col at hc
      cases hf : dateCandidates.find? (fun c => df.names.contains c) with
      | some c' =>
        rw [hf] at hc
        injection hc with hc
        subst hc
        simpa using List.find?_some hf
      | none =>
        rw [hf] at hc
        cases hn : df.names with
        | nil => rw [hn] at hc; cases hc
        | cons a t =>
          rw [hn] at hc
          injection hc with hc
          exact List.mem_cons.2 (Or.inl hc.symm)
    have hlt : df.names.findIdx (fun n => n == c) < df.names.length :=
      List.findIdx_lt_length_of_exists ⟨c, hmem, by simp⟩
    simpa [RawDF.names] using hlt

/-- Standardised rows have one cell per remaining header entry (for
rectangular raw tables). -/
lemma std_row_cells_length {V : Type} {df : RawDF V} {i : Nat} {sd : StdDF V}
    (hrect : ∀ row ∈ df.rows, row.length = df.header.length)
    (hi : dateColIdx df = some i) (h : standardize df = some sd) :
    ∀ p ∈ sd.rows, p.2.length = sd.header.length := by
  intro p hp
  have hmem : p ∈ df.rows.filterMap (rowKeyed i) := (std_rows_perm hi h).mem_iff.1 hp
  obtain ⟨r, hr, hk⟩ := List.mem_filterMap.1 hmem
  unfold rowKeyed at hk
  cases hd : r[i]? >>= Cell.date with
  | none => rw [hd] at hk; cases hk
  | some d =>
    rw [hd] at hk
    injection hk with hk
    rw [← hk]
    have hhdr : sd.header = df.header.eraseIdx i := by
      rw [standardize_eq hi] at h
      injection h with h
      rw [← h]
    have hlen := hrect r hr
    have hilt : i < r.length := by rw [hlen]; exact dateColIdx_lt hi
    rw [hhdr]
    simp [List.length_eraseIdx, hilt, hlen, dateColIdx_lt hi]

/-- Numeric projection preserves the numeric-column count. -/
lemma selectNum_length {V : Type} :
    ∀ (header : List (String × Bool)) (cells : List (Cell V)),
      cells.length = header.length →
      (selectNum header cells).length =
        ((header.filter (fun p => p.2)).map (fun p => p.1)).length := by
  intro header
  induction header with
  | nil => intro cells _; simp [selectNum]
  | cons hp ht ih =>
    intro cells h
    cases cells with
    | nil => simp at h
    | cons c ct =>
      have hlen : ct.length = ht.length := by simpa using h
      by_cases hb : hp.2 = true <;>
        simp [selectNum, List.filter_cons, hb, ← ih ct hlen, selectNum]

/-- Rows of the numeric table have one value per retained column name. -/
lemma keep_rows_length {V : Type} {df : RawDF V} {i : Nat} {sd : StdDF V}
    {n : NumDF V}
    (hrect : ∀ row ∈ df.rows, row.length = df.header.length)
    (hi : dateColIdx df = some i) (hstd : standardize df = some sd)
    (hk : keep_numeric sd = .ok n) :
    ∀ p ∈ n.rows, p.2.length = n.names.length := by
  obtain ⟨hnames, hrows, -⟩ := keep_numeric_ok hk
  intro p hp
  rw [hrows] at hp
  obtain ⟨q, hq, hpq⟩ := List.mem_map.1 hp
  rw [← hpq]
  simp only
  rw [hnames]
  exact selectNum_length sd.header q.2 (std_row_cells_length hrect hi hstd q hq)

/-- C5: the first-difference property.  On the (sorted, prefixed) rate table,
the rate-change row at position `t+1` carries the same date and, entrywise,
the value at `t+1` minus the value at `t`; and the date of the first rate
observation (whose difference row is entirely missing) never appears in the
final aligned dataset. -/
theorem C5_first_difference {V : Type} [Sub V] (ratesRaw equityRaw : RawDF V)
    (rs es : StdDF V) (r0 e0 ds : NumDF V)
    (hrect : ∀ row ∈ ratesRaw.rows, row.length = ratesRaw.header.length)
    (hsr : standardize ratesRaw = some rs) (hse : standardize equityRaw = some es)
    (hkr : keep_numeric rs = .ok r0) (hke : keep_numeric es = .ok e0)
    (hds : build_dataset ratesRaw equityRaw = .ok ds) :
    (∀ (t j : Nat) (q q' : V) (rowt rowt1 : Int × List (Option V)),
        (r0.addPre "rate_").rows[t]? = some rowt →
        (r0.addPre "rate_").rows[t + 1]? = some rowt1 →
        rowt.2[j]? = some (some q) → rowt1.2[j]? = some (some q') →
        ∃ drow, ((r0.addPre "rate_").diffN).rows[t + 1]? = some drow ∧
          drow.1 = rowt1.1 ∧ drow.2[j]? = some (some (q' - q)))
    ∧ (∀ row0, (r0.addPre "rate_").rows.head? = some row0 → row0.1 ∉ ds.index) := by
  obtain ⟨ir, hir⟩ := dateColIdx_of_standardize hsr
  constructor
  · intro t j q q' rowt rowt1 h1 h2 h3 h4
    refine ⟨(rowt1.1, List.zipWith diffPair rowt.2 rowt1.2), ?_, rfl, ?_⟩
    · unfold NumDF.diffN
      cases hrows : (r0.addPre "rate_").rows with
      | nil => rw [hrows] at h1; cases h1
      | cons a rest =>
        simp only [List.getElem?_cons_succ]
        rw [← hrows, List.getElem?_zipWith]
        rw [List.getElem?_tail, h1]
        rw [show (t : Nat) + 1 = t + 1 from rfl, h2]
    · rw [List.getElem?_zipWith, h3, h4]
      rfl
  · intro row0 h0 hmem
    have hds2 : ds = (concatInner (e0.addPre "eq_") (r0.addPre "rate_")
        ((r0.addPre "rate_").diffN)).dropna := by
      have heq : build_dataset ratesRaw equityRaw =
          .ok ((concatInner (e0.addPre "eq_") (r0.addPre "rate_")
            ((r0.addPre "rate_").diffN)).dropna) := by
        simp only [build_dataset, hsr, hse, hkr, hke]
      rw [heq] at hds
      injection hds with h
      exact h.symm
    rw [hds2, mem_final_index_iff] at hmem
    obtain ⟨v, rv, dv, -, -, hdv, hall⟩ := hmem
    -- the rate table is nonempty with head row0
    obtain ⟨rest, hrows⟩ : ∃ rest, (r0.addPre "rate_").rows = row0 :: rest := by
      cases hr2 : (r0.addPre "rate_").rows with
      | nil => rw [hr2] at h0; cases h0
      | cons a rest =>
        rw [hr2] at h0
        injection h0 with h0
        exact ⟨rest, by rw [h0]⟩
    -- the difference row at the head date is all-missing
    have hdiff : ((r0.addPre "rate_").diffN).rows =
        (row0.1, row0.2.map (fun _ => (none : Option V))) ::
          List.zipWith (fun prev cur => (cur.1, List.zipWith diffPair prev.2 cur.2))
            (row0 :: rest) rest := by
      unfold NumDF.diffN
      rw [hrows]
      rfl
    have hlu : ((r0.addPre "rate_").diffN).lookup row0.1 =
        some (row0.2.map (fun _ => (none : Option V))) := by
      unfold NumDF.lookup
      rw [hdiff, List.find?_cons_of_pos _ (by simp)]
      rfl
    rw [hlu] at hdv
    injection hdv with hdv
    -- but the joined row was supposed to be complete
    rw [List.all_append, List.all_append] at hall
    have hdvall : dv.all Option.isSome = true := by
      have := hall
      simp only [Bool.and_eq_true] at this
      exact this.2
    -- while row0 has at least one (numeric) entry, all of them missing
    have hlen : row0.2.length = r0.names.length := by
      have := keep_rows_length hrect hir hsr hkr row0 (by
        rw [show r0.rows = (r0.addPre "rate_").rows from rfl, hrows]
        exact List.mem_cons_self _ _)
      simpa using this
    have hnames := (keep_numeric_ok hkr).2.2
    have hpos : 0 < row0.2.length := by
      rw [hlen]
      exact List.length_pos.2 hnames
    cases hc : row0.2 with
    | nil => rw [hc] at hpos; simp at hpos
    | cons c ct =>
      rw [← hdv, hc] at hdvall
      simp at hdvall

/-- Witness for C5 at the concrete tables of the C4 witness: the difference
at date 2 is 12 − 10 = 2, and date 1 (the first rate observation) is absent
from the final dataset. -/
theorem C5_witness :
    (∃ drow, ((r0C4.addPre "rate_").diffN).rows[0 + 1]? = some drow ∧
        drow.1 = (2, [some (12 : Int)]).1 ∧
        drow.2[0]? = some (some ((12 : Int) - 10))) ∧
      (1 : Int) ∉ dsC4.index := by
  have h := C5_first_difference raC4 eaC4 rsC4 esC4 r0C4 e0C4 dsC4
    (by decide) (by rfl) (by rfl) (by rfl) (by rfl) (by rfl)
  exact ⟨h.1 0 0 10 12 (1, [some 10]) (2, [some 12]) (by rfl) (by rfl) (by rfl) (by rfl),
    h.2 (1, [some 10]) (by rfl)⟩

end RatesEquity
